import Mathlib

/-!
# Verification of the pdf-lite-mcp request pipeline

Shallow embedding of the repository's pure logic:

* `src/utils.py` — path confinement (`resolve_path`), error formatting
  (`format_error_for_amazon_q`), truncation (`truncate_text`) and text
  normalization (`clean_pdf_text`);
* `src/models.py` — the `PdfSource` validators and constructor check;
* `src/pdf_reader.py` — the batch orchestrator (`process_request`), the
  per-source pipeline (`process_single_source`) and page-text extraction
  (`extract_page_texts`).

Python strings are modelled as `List Char` (sequences of code points); the
string-returning helpers operate on `List Char` and `String` wrappers are
provided where the higher-level code passes `String`s around.  I/O (file
system reads, the HTTP fetch, the external PDF parser) is abstracted into
oracles: a loader oracle `PdfSource → Except PyError PdfDoc` and, inside
`PdfDoc`, a per-page text oracle; the control flow around those oracles is
translated directly from the source.
-/

/-- Python's `\s` character class for `str` patterns: ASCII whitespace,
the C1 separators, NEL, and the Unicode space/line/paragraph separators.
`re.sub(r'\s+', ...)` and `str.strip()` both use this class. -/
def isPySpace (c : Char) : Bool :=
  c ∈ [' ', '\t', '\n', '\x0b', '\x0c', '\r',
       '\x1c', '\x1d', '\x1e', '\x1f', '\u0085', ' ', ' ',
       ' ', ' ', ' ', ' ', ' ', ' ',
       ' ', ' ', ' ', ' ', ' ',
       ' ', ' ', ' ', ' ', '　']

/-- State machine for `re.sub(r'\s+', ' ', text)`: `inRun` records whether the
previous character was whitespace (i.e. we are inside a run that has already
emitted its single replacement space). -/
def collapseWsAux (inRun : Bool) : List Char → List Char
  | [] => []
  | c :: rest =>
    if isPySpace c then
      if inRun then collapseWsAux true rest
      else ' ' :: collapseWsAux true rest
    else c :: collapseWsAux false rest

/-- `re.sub(r'\s+', ' ', text)` — every maximal run of whitespace becomes a
single space (utils.py line 142). -/
def collapseWs (l : List Char) : List Char := collapseWsAux false l

/-- The leftmost-greedy match of Python's regex `\n\s*\n\s*\n+` anchored at the
head of `l`, returning the length of the matched text.  The pattern matches
exactly when the string starts with `'\n'` and the maximal whitespace run from
that point contains at least three newlines; the greedy match then extends to
(and includes) the last newline of that run. -/
def lineBreakMatch (l : List Char) : Option Nat :=
  if l.head? = some '\n' then
    let run := l.takeWhile isPySpace
    let idxs := (List.range run.length).filter (fun i => run.get? i = some '\n')
    if 3 ≤ idxs.length then idxs.getLast?.map (· + 1) else none
  else none

/-- `re.sub(r'\n\s*\n\s*\n+', '\n\n', cleaned)` (utils.py line 145): scan left
to right; at each position, if the pattern matches, emit the replacement
`"\n\n"` and resume after the matched text, otherwise copy the character. -/
def squeezeBreaks (l : List Char) : List Char :=
  match h : lineBreakMatch l with
  | some n => '\n' :: '\n' :: squeezeBreaks (l.drop n)
  | none =>
    match l with
    | [] => []
    | c :: rest => c :: squeezeBreaks rest
termination_by l.length
decreasing_by
  · have hs : 0 < n ∧ l ≠ [] := by
      unfold lineBreakMatch at h
      split at h
      case isTrue hhead =>
        dsimp only at h
        split at h
        · rcases Option.map_eq_some'.1 h with ⟨j, _, hj⟩
          refine ⟨by omega, ?_⟩
          rintro rfl
          simp at hhead
        · exact absurd h (by simp)
      case isFalse => exact absurd h (by simp)
    simp only [List.length_drop]
    have hl : l.length ≠ 0 := by
      intro h0
      exact hs.2 (List.length_eq_zero.mp h0)
    omega
  · simp

def dropTrailWs : List Char → List Char
  | [] => []
  | c :: rest =>
    match dropTrailWs rest with
    | [] => if isPySpace c then [] else [c]
    | r => c :: r

/-- Python's `str.strip()`: remove leading and trailing whitespace. -/
def pyStrip (l : List Char) : List Char := dropTrailWs (l.dropWhile isPySpace)

/-- `clean_pdf_text` (utils.py lines 126–147): empty input short-circuits;
otherwise collapse whitespace runs to single spaces, apply the line-break
squeeze, and strip. -/
def clean_pdf_text (l : List Char) : List Char :=
  if l = [] then [] else pyStrip (squeezeBreaks (collapseWs l))

/-- Python slice `l[:k]` for a possibly negative bound `k`: a negative bound
counts from the end, clamped at zero. -/
def pySliceTo (l : List Char) (k : Int) : List Char :=
  if 0 ≤ k then l.take k.toNat else l.take (l.length - (-k).toNat)

/-- `truncate_text` (utils.py lines 108–123): return the text unchanged when
it fits in `max_length`, otherwise `text[:max_length-3] + "..."`. -/
def truncate_text (l : List Char) (max_length : Nat) : List Char :=
  if l.length ≤ max_length then l
  else pySliceTo l ((max_length : Int) - 3) ++ ['.', '.', '.']

/-- `truncate_text` with its default argument `max_length = 10000`. -/
def truncate_text_default (l : List Char) : List Char := truncate_text l 10000

/-- The simpler transform the spec compares `clean_pdf_text` against: collapse
each maximal whitespace run to a single space, then trim both ends. -/
def collapse_then_strip (l : List Char) : List Char := pyStrip (collapseWs l)
/-- The head of the list is absent or not whitespace. -/
def headNotWs : List Char → Bool
  | [] => true
  | c :: _ => !isPySpace c

/-- Normal form of the whitespace collapse: every whitespace character is a
single space and is followed by a non-whitespace character (or the end). -/
def normalWs : List Char → Bool
  | [] => true
  | c :: rest =>
    (if isPySpace c then c == ' ' && headNotWs rest else true) && normalWs rest

/-- The exception values the pipeline distinguishes (`utils.SecurityError`,
the Python builtins it tests with `isinstance`, and a catch-all carrying the
exception's class name), each with its message `str(e)`. -/
inductive PyError where
  | securityError (msg : String)
  | fileNotFoundError (msg : String)
  | permissionError (msg : String)
  | valueError (msg : String)
  | urlError (msg : String)
  | otherError (name : String) (msg : String)
deriving DecidableEq

/-- Python `str(error)`. -/
def PyError.str : PyError → String
  | .securityError m => m
  | .fileNotFoundError m => m
  | .permissionError m => m
  | .valueError m => m
  | .urlError m => m
  | .otherError _ m => m

/-- Python `type(error).__name__`. -/
def PyError.typeName : PyError → String
  | .securityError _ => "SecurityError"
  | .fileNotFoundError _ => "FileNotFoundError"
  | .permissionError _ => "PermissionError"
  | .valueError _ => "ValueError"
  | .urlError _ => "URLError"
  | .otherError n _ => n

/-- Python's substring test `pat in s`, on character lists. -/
def containsSeq (pat : List Char) : List Char → Bool
  | [] => pat.isEmpty
  | c :: rest => pat.isPrefixOf (c :: rest) || containsSeq pat rest

/-- `format_error_for_amazon_q` (utils.py lines 82–105): the `isinstance`
ladder over the error's class, then the `"PDF" in str(error).upper()` test,
then the generic branch carrying the context. -/
def format_error_for_amazon_q (error : PyError) (context : String) : String :=
  match error with
  | .securityError m => "🔒 Security Error: " ++ m
  | .fileNotFoundError m => "📁 File Not Found: " ++ m
  | .permissionError m => "🚫 Permission Error: " ++ m
  | _ =>
    if containsSeq ("PDF".toList) (error.str.toUpper.toList) then
      "📄 PDF Processing Error: " ++ error.str
    else
      "❌ " ++ error.typeName ++ ": " ++
        (if context.isEmpty then "" else context ++ ": ") ++ error.str

/-- `PdfSource` (models.py lines 10–39), after validation. -/
structure PdfSource where
  path : Option String
  url : Option String
  pages : Option (List Int)
deriving DecidableEq

/-- The `validate_pages` field validator (models.py lines 16–27): reject an
empty list, any non-positive entry, or a list longer than 100 (checked on the
raw list, before deduplication); store `sorted(list(set(v)))`. -/
def validate_pages : Option (List Int) → Except String (Option (List Int))
  | none => Except.ok none
  | some v =>
    if v = [] then Except.error "Pages list cannot be empty"
    else if v.any (fun p => decide (p ≤ 0)) then
      Except.error "Page numbers must be positive integers"
    else if 100 < v.length then
      Except.error "Too many pages requested (limit: 100)"
    else Except.ok (some (List.insertionSort (· ≤ ·) v.dedup))

/-- The `validate_url` field validator (models.py lines 29–33); the
`startswith` tests are character-prefix tests. -/
def validate_url : Option String → Except String (Option String)
  | none => Except.ok none
  | some v =>
    if "http://".toList.isPrefixOf v.toList || "https://".toList.isPrefixOf v.toList then
      Except.ok (some v)
    else Except.error "URL must start with http:// or https://"

/-- Python truthiness of an `Optional[str]`: `None` and `""` are falsy. -/
def pyTruthyStr : Option String → Bool
  | none => false
  | some s => !s.toList.isEmpty

/-- `PdfSource.__init__` (models.py lines 35–39): run the field validators,
then require exactly one of path/url to be truthy. -/
def mkPdfSource (path url : Option String) (pages : Option (List Int)) :
    Except String PdfSource :=
  match validate_url url, validate_pages pages with
  | Except.error m, _ => Except.error m
  | _, Except.error m => Except.error m
  | Except.ok u, Except.ok p =>
    if (pyTruthyStr path && !pyTruthyStr u) || (!pyTruthyStr path && pyTruthyStr u) then
      Except.ok ⟨path, u, p⟩
    else
      Except.error "Each source must have either 'path' or 'url', but not both"

/-- `ReadPdfRequest` (models.py lines 42–48), after validation. -/
structure ReadPdfRequest where
  sources : List PdfSource
  include_full_text : Bool
  include_metadata : Bool
  include_page_count : Bool

/-- The pydantic bounds on `sources` (`min_items=1, max_items=10`). -/
def validRequest (r : ReadPdfRequest) : Prop :=
  1 ≤ r.sources.length ∧ r.sources.length ≤ 10

/-- Python `str.split(sep)` for a single-character separator, on character
lists (`"".split('/') == ['']`, `"a//b".split('/') == ['a', '', 'b']`). -/
def splitOnChar (sep : Char) : List Char → List (List Char)
  | [] => [[]]
  | c :: rest =>
    if c = sep then [] :: splitOnChar sep rest
    else
      match splitOnChar sep rest with
      | [] => [[c]]
      | w :: ws => (c :: w) :: ws

/-- One step of the component loop of `posixpath.normpath`, over an
accumulator kept in reverse order (head = most recent component): empty and
`.` components are dropped; a component is appended when it is not `..`, or
when the path is relative and nothing has been accumulated, or when the last
accumulated component is itself `..`; otherwise `..` pops a component when one
exists and is dropped at the root of an absolute path.  Path components are
character lists. -/
def normpathStep (isAbs : Bool) (acc : List (List Char)) (comp : List Char) :
    List (List Char) :=
  if comp = [] ∨ comp = ['.'] then acc
  else if comp ≠ ['.', '.'] ∨ (isAbs = false ∧ acc = []) ∨
      acc.head? = some ['.', '.'] then
    comp :: acc
  else if acc ≠ [] then acc.tail
  else acc

/-- The component pass of `posixpath.normpath`. -/
def normpathComps (isAbs : Bool) (comps : List (List Char)) :
    List (List Char) :=
  (comps.foldl (normpathStep isAbs) []).reverse

/-- `os.path.normpath` on POSIX: split on `/`, run the component loop, and
rejoin.  (The CPython special case preserving a leading exactly-double slash
is not modelled: it only changes the rendering of absolute results, and every
absolute path is rejected by `resolve_path` immediately afterwards.) -/
def normpathList (p : List Char) : List Char :=
  let isAbs := p.head? = some '/'
  let comps := normpathComps isAbs (splitOnChar '/' p)
  let path := (if isAbs then ['/'] else []) ++ List.intercalate ['/'] comps
  if path = [] then ['.'] else path

/-- `pathlib.Path.resolve()` on a symlink-free file system: interpret the
segments left to right from the file-system root; `.` and empty segments are
ignored and `..` pops one level (a no-op at the root). -/
def resolveSegs (segs : List (List Char)) : List (List Char) :=
  segs.foldl
    (fun acc s =>
      if s = [] ∨ s = ['.'] then acc
      else if s = ['.', '.'] then acc.dropLast
      else acc ++ [s]) []

/-- `PathUtils.resolve_path` (utils.py lines 24-60): reject input that is
empty after stripping, normalize, reject absolute paths (`os.path.isabs` is
the leading-slash test), resolve against the project root (given as its
absolute-path segment list), and reject results the root is not a path-prefix
of (the `relative_to` test).  Absolute paths are segment lists from the
file-system root; strings are character lists throughout. -/
def resolve_path (project_root : List (List Char)) (user_path : List Char) :
    Except PyError (List (List Char)) :=
  if pyStrip user_path = [] then
    Except.error (PyError.valueError "Path cannot be empty")
  else
    let normalized := normpathList user_path
    if normalized.head? = some '/' then
      Except.error (PyError.securityError "Absolute paths are not allowed")
    else
      let resolved := resolveSegs (project_root ++ splitOnChar '/' normalized)
      if project_root.isPrefixOf resolved then Except.ok resolved
      else Except.error (PyError.securityError "Path traversal detected. Access denied")

/-- The opened-document handle driven by the external parser, abstracted into
a model: the page count `len(pdf_reader.pages)`, the raw metadata mapping
(values already stringified, `None` meaning falsy/absent metadata), and a
per-page oracle combining `pdf_reader.pages[i]` with `page.extract_text()`
(indexed as the code indexes, 0-based, and allowed to raise). -/
structure PdfDoc where
  numPages : Nat
  metadataRaw : Option (List (String × Option String))
  extractText : Int → Except PyError String

/-- `key.lstrip('/')`. -/
def lstripSlash (s : String) : String :=
  String.mk (s.toList.dropWhile (fun c => c = '/'))

/-- `PdfProcessor._extract_metadata` (pdf_reader.py lines 255–277): strip the
leading slashes from the keys; absent (falsy) metadata yields the empty
mapping.  The defensive `except` around the read cannot fire in the model, in
which the metadata mapping is plain data. -/
def extract_metadata (doc : PdfDoc) : List (String × Option String) :=
  match doc.metadataRaw with
  | none => []
  | some m => m.map (fun kv => (lstripSlash kv.1, kv.2))

/-- `ExtractedPageText` (models.py lines 50–53). -/
structure ExtractedPageText where
  page : Int
  text : String
deriving DecidableEq

/-- `PdfResultData` (models.py lines 56–62); every field defaults to `None`. -/
structure PdfResultData where
  metadata : Option (List (String × Option String))
  num_pages : Option Nat
  full_text : Option String
  page_texts : Option (List ExtractedPageText)
  warnings : Option (List String)
deriving DecidableEq

/-- `PdfSourceResult` (models.py lines 65–70). -/
structure PdfSourceResult where
  source : String
  success : Bool
  data : Option PdfResultData
  error : Option String
deriving DecidableEq

/-- `ReadPdfResponse` (models.py lines 73–75). -/
structure ReadPdfResponse where
  results : List PdfSourceResult
deriving DecidableEq

/-- `clean_pdf_text` on `String`. -/
def clean_pdf_text_str (s : String) : String := String.mk (clean_pdf_text s.toList)

/-- `truncate_text` on `String` at its default budget, as called at
pdf_reader.py line 303. -/
def truncate_text_str (s : String) : String :=
  String.mk (truncate_text_default s.toList)

/-- Python's `str` of a list of ints, as interpolated into the warning
message: `str([9999]) = "[9999]"`. -/
def pyIntListRepr (l : List Int) : String :=
  "[" ++ String.intercalate ", " (l.map toString) ++ "]"

/-- `source.path or source.url or "unknown"` (pdf_reader.py lines 78, 107)
under Python truthiness. -/
def sourceDesc (s : PdfSource) : String :=
  if pyTruthyStr s.path then s.path.getD ""
  else if pyTruthyStr s.url then s.url.getD ""
  else "unknown"

/-- `PdfProcessor._extract_page_texts` (pdf_reader.py lines 279–317): for each
requested page number, extract, clean and truncate its text; a failure at one
page is caught at the page boundary and recorded inline as that page's text. -/
def extract_page_texts (doc : PdfDoc) (page_numbers : List Int) :
    List ExtractedPageText :=
  page_numbers.map (fun page_num =>
    match doc.extractText (page_num - 1) with
    | Except.ok text => ⟨page_num, truncate_text_str (clean_pdf_text_str text)⟩
    | Except.error e =>
      ⟨page_num,
       "Error: " ++ format_error_for_amazon_q e ("extracting page " ++ toString page_num)⟩)

/-- Python truthiness of `source.pages` (`if target_pages:`). -/
def pagesTruthy : Option (List Int) → Bool
  | none => false
  | some l => !l.isEmpty

/-- `1 <= page_num <= total_pages` (pdf_reader.py line 135). -/
def pageInRange (total : Nat) (p : Int) : Bool :=
  decide (1 ≤ p ∧ p ≤ (total : Int))

/-- The aggregated warning of pdf_reader.py line 143. -/
def outOfRangeWarning (invalid : List Int) (total : Nat) : String :=
  "Requested page numbers " ++ pyIntListRepr invalid ++
    " exceed total pages (" ++ toString total ++ ")"

/-- `PdfProcessor._process_single_source` (pdf_reader.py lines 88–177), with
document loading abstracted into the oracle `load` (standing for `_load_pdf`:
path resolution, file existence, the URL fetch and the parser open, any of
which may raise).  The single-page loop of line 134 partitions the requested
pages into in-range and out-of-range in input order, which is the pair of
filters below; the surrounding `try` catches any raised failure — in the
embedding the loader oracle is its only raising step — and returns a failed
result for this source. -/
def process_single_source (load : PdfSource → Except PyError PdfDoc)
    (source : PdfSource)
    (include_full_text include_metadata include_page_count : Bool) :
    PdfSourceResult :=
  let source_desc := sourceDesc source
  match load source with
  | Except.error e =>
    ⟨source_desc, false, none,
     some (format_error_for_amazon_q e ("Processing " ++ source_desc))⟩
  | Except.ok pdf_reader =>
    let total_pages := pdf_reader.numPages
    let num_pages := if include_page_count then some total_pages else none
    let metadata :=
      if include_metadata then some (extract_metadata pdf_reader) else none
    let target_pages := source.pages
    let tp := target_pages.getD []
    let pages_to_process :=
      if pagesTruthy target_pages then tp.filter (pageInRange total_pages)
      else if include_full_text then
        (List.range total_pages).map (fun i => (i : Int) + 1)
      else []
    let invalid_pages :=
      if pagesTruthy target_pages then
        tp.filter (fun p => !pageInRange total_pages p)
      else []
    let warnings :=
      if pagesTruthy target_pages ∧ invalid_pages ≠ [] then
        some [outOfRangeWarning invalid_pages total_pages]
      else none
    let extracted := extract_page_texts pdf_reader pages_to_process
    let page_texts :=
      if pages_to_process ≠ [] ∧ pagesTruthy target_pages then some extracted
      else none
    let full_text :=
      if pages_to_process ≠ [] ∧ ¬ pagesTruthy target_pages then
        some (clean_pdf_text_str
          (String.intercalate "\n\n" (extracted.map (fun e => e.text))))
      else none
    ⟨source_desc, true,
     some ⟨metadata, num_pages, full_text, page_texts, warnings⟩, none⟩

/-- `PdfProcessor.process_request` (pdf_reader.py lines 55–86): the
sequential per-source loop.  `_process_single_source` returns a result in
every case (it catches at the source boundary), so the loop body's own
`except` (lines 76–84) is unreachable and the loop is the map below. -/
def process_request (load : PdfSource → Except PyError PdfDoc)
    (request : ReadPdfRequest) : ReadPdfResponse :=
  ⟨request.sources.map (fun source =>
    process_single_source load source request.include_full_text
      request.include_metadata request.include_page_count)⟩

/-- Which branch of `_load_pdf` (pdf_reader.py lines 179–205) handles a
source: the local-path branch, the URL branch, or the defensive
`ValueError` when both fields are falsy. -/
inductive LoadRoute where
  | localPath (p : String)
  | remoteUrl (u : String)
  | invalidSource
deriving DecidableEq

/-- The dispatch of `_load_pdf`: `if source.path:` / `elif source.url:` under
Python truthiness (so an empty-string path falls through to the URL branch). -/
def loadRoute (source : PdfSource) : LoadRoute :=
  if pyTruthyStr source.path then LoadRoute.localPath (source.path.getD "")
  else if pyTruthyStr source.url then LoadRoute.remoteUrl (source.url.getD "")
  else LoadRoute.invalidSource

theorem lineBreakMatch_eq_none (l : List Char) (h : l.head? ≠ some '\n') :
    lineBreakMatch l = none := by
  unfold lineBreakMatch
  simp [h]

theorem mem_collapseWsAux (b : Bool) (l : List Char) (c : Char)
    (hc : c ∈ collapseWsAux b l) : c = ' ' ∨ isPySpace c = false := by
  induction l generalizing b with
  | nil => simp [collapseWsAux] at hc
  | cons d rest ih =>
    by_cases hd : isPySpace d
    · cases b with
      | true =>
        simp only [collapseWsAux, hd, if_true] at hc
        exact ih true hc
      | false =>
        simp only [collapseWsAux, hd, if_true] at hc
        rcases List.mem_cons.mp hc with h1 | h1
        · exact Or.inl h1
        · exact ih true h1
    · simp only [collapseWsAux, hd, if_false, Bool.false_eq_true] at hc
      rcases List.mem_cons.mp hc with h1 | h1
      · subst h1
        exact Or.inr (by simpa using hd)
      · exact ih false h1

theorem no_newline_collapseWs (l : List Char) (c : Char)
    (hc : c ∈ collapseWs l) : c ≠ '\n' := by
  rcases mem_collapseWsAux false l c hc with h | h
  · subst h
    decide
  · intro he
    subst he
    simp [isPySpace] at h

theorem squeezeBreaks_of_no_newline (l : List Char) (h : ∀ c ∈ l, c ≠ '\n') :
    squeezeBreaks l = l := by
  induction l with
  | nil =>
    rw [squeezeBreaks.eq_def]
    simp [lineBreakMatch]
  | cons c rest ih =>
    have hm : lineBreakMatch (c :: rest) = none := by
      apply lineBreakMatch_eq_none
      simpa using h c (by simp)
    rw [squeezeBreaks.eq_def]
    split
    · next n heq => rw [hm] at heq; exact absurd heq (by simp)
    · exact congrArg (c :: ·) (ih (fun d hd => h d (by simp [hd])))

/-- The line-break squeeze is the identity on the output of the whitespace
collapse, so `clean_pdf_text` is collapse-then-strip. -/
theorem clean_pdf_text_eq_collapse (l : List Char) :
    clean_pdf_text l = collapse_then_strip l := by
  unfold clean_pdf_text collapse_then_strip
  split
  · next he => subst he; rfl
  · rw [squeezeBreaks_of_no_newline _ (fun c hc => no_newline_collapseWs l c hc)]

theorem headNotWs_collapseWsAux_true (l : List Char) :
    headNotWs (collapseWsAux true l) = true := by
  induction l with
  | nil => rfl
  | cons c rest ih =>
    by_cases hc : isPySpace c
    · simpa [collapseWsAux, hc] using ih
    · simp [collapseWsAux, hc, headNotWs]

theorem normalWs_collapseWsAux (l : List Char) (b : Bool) :
    normalWs (collapseWsAux b l) = true := by
  induction l generalizing b with
  | nil => rfl
  | cons c rest ih =>
    by_cases hc : isPySpace c
    · cases b with
      | true => simpa [collapseWsAux, hc] using ih true
      | false =>
        simp only [collapseWsAux, hc, if_true]
        simp [normalWs, headNotWs_collapseWsAux_true rest, ih true, isPySpace]
    · simp [collapseWsAux, hc, normalWs, ih false]

theorem dropTrailWs_cons (c : Char) (rest : List Char) :
    dropTrailWs (c :: rest) =
      match dropTrailWs rest with
      | [] => if isPySpace c then [] else [c]
      | r => c :: r := rfl

theorem dropTrailWs_cons_of_nil (c : Char) (rest : List Char)
    (h : dropTrailWs rest = []) :
    dropTrailWs (c :: rest) = if isPySpace c then [] else [c] := by
  rw [dropTrailWs_cons, h]

theorem dropTrailWs_cons_of_cons (c x : Char) (rest xs : List Char)
    (h : dropTrailWs rest = x :: xs) :
    dropTrailWs (c :: rest) = c :: x :: xs := by
  rw [dropTrailWs_cons, h]

theorem normalWs_cons (c : Char) (rest : List Char) :
    normalWs (c :: rest) =
      ((if isPySpace c then c == ' ' && headNotWs rest else true) &&
        normalWs rest) := rfl

theorem collapseWsAux_of_normal (l : List Char) (hn : normalWs l = true) :
    collapseWsAux false l = l ∧
      (headNotWs l = true → collapseWsAux true l = l) := by
  induction l with
  | nil => exact ⟨rfl, fun _ => rfl⟩
  | cons c rest ih =>
    rw [normalWs_cons, Bool.and_eq_true] at hn
    by_cases hc : isPySpace c
    · rw [if_pos hc] at hn
      have hsp : c = ' ' := by
        have := hn.1
        simp only [Bool.and_eq_true, beq_iff_eq] at this
        exact this.1
      have hhead : headNotWs rest = true := by
        have := hn.1
        simp only [Bool.and_eq_true, beq_iff_eq] at this
        exact this.2
      have htrue := (ih hn.2).2 hhead
      constructor
      · subst hsp
        simp [collapseWsAux, hc, htrue]
      · intro habs
        rw [headNotWs, hc] at habs
        simp at habs
    · rcases ih hn.2 with ⟨h1, _⟩
      constructor
      · simp [collapseWsAux, hc, h1]
      · intro _
        simp [collapseWsAux, hc, h1]

theorem normalWs_dropWhile (l : List Char) (hn : normalWs l = true) :
    normalWs (l.dropWhile isPySpace) = true := by
  cases l with
  | nil => rfl
  | cons c rest =>
    rw [normalWs_cons, Bool.and_eq_true] at hn
    by_cases hc : isPySpace c
    · rw [List.dropWhile_cons, if_pos hc]
      rw [if_pos hc] at hn
      have hhead : headNotWs rest = true := by
        have := hn.1
        simp at this
        exact this.2
      cases rest with
      | nil => rfl
      | cons d rest2 =>
        have hd : isPySpace d = false := by
          simpa [headNotWs] using hhead
        rw [List.dropWhile_cons, if_neg (by simp [hd])]
        exact hn.2
    · rw [List.dropWhile_cons, if_neg (by simp [hc])]
      simp only [normalWs, Bool.and_eq_true]
      exact ⟨by rw [if_neg hc], hn.2⟩

theorem dropTrailWs_head (l : List Char) :
    dropTrailWs l = [] ∨ (dropTrailWs l).head? = l.head? := by
  cases l with
  | nil => exact Or.inl rfl
  | cons c rest =>
    cases h : dropTrailWs rest with
    | nil =>
      by_cases hc : isPySpace c
      · exact Or.inl (by simp [dropTrailWs, h, hc])
      · exact Or.inr (by simp [dropTrailWs, h, hc])
    | cons x xs => exact Or.inr (by simp [dropTrailWs, h])

theorem normalWs_dropTrailWs (l : List Char) (hn : normalWs l = true) :
    normalWs (dropTrailWs l) = true := by
  induction l with
  | nil => rfl
  | cons c rest ih =>
    rw [normalWs_cons, Bool.and_eq_true] at hn
    have ihr := ih hn.2
    cases h : dropTrailWs rest with
    | nil =>
      rw [dropTrailWs_cons_of_nil c rest h]
      by_cases hc : isPySpace c
      · rw [if_pos hc]
        rfl
      · rw [if_neg hc, normalWs_cons]
        simp [hc, normalWs]
    | cons x xs =>
      have hhead : (x :: xs).head? = rest.head? := by
        rcases dropTrailWs_head rest with h1 | h1
        · rw [h] at h1
          exact absurd h1 (by simp)
        · rw [h] at h1
          exact h1
      rw [dropTrailWs_cons_of_cons c x rest xs h, normalWs_cons,
        Bool.and_eq_true]
      refine ⟨?_, by rw [← h]; exact ihr⟩
      by_cases hc : isPySpace c
      · rw [if_pos hc]
        rw [if_pos hc] at hn
        have hg := hn.1
        simp only [Bool.and_eq_true, beq_iff_eq] at hg
        cases rest with
        | nil => simp at hhead
        | cons d rest2 =>
          simp only [List.head?_cons, Option.some.injEq] at hhead
          have hd : isPySpace x = false := by
            rw [hhead]
            simpa [headNotWs] using hg.2
          simp [hg.1, headNotWs, hd]
      · rw [if_neg hc]

theorem dropTrailWs_idem (l : List Char) :
    dropTrailWs (dropTrailWs l) = dropTrailWs l := by
  induction l with
  | nil => rfl
  | cons c rest ih =>
    cases h : dropTrailWs rest with
    | nil =>
      rw [dropTrailWs_cons_of_nil c rest h]
      by_cases hc : isPySpace c
      · rw [if_pos hc]
        rfl
      · rw [if_neg hc, dropTrailWs_cons_of_nil c [] rfl, if_neg hc]
    | cons x xs =>
      rw [h] at ih
      rw [dropTrailWs_cons_of_cons c x rest xs h,
        dropTrailWs_cons_of_cons c x (x :: xs) xs ih]

theorem headNotWs_dropWhile (l : List Char) :
    headNotWs (l.dropWhile isPySpace) = true := by
  induction l with
  | nil => rfl
  | cons c rest ih =>
    by_cases hc : isPySpace c
    · rw [List.dropWhile_cons, if_pos hc]
      exact ih
    · rw [List.dropWhile_cons, if_neg (by simp [hc])]
      simpa [headNotWs] using hc

theorem headNotWs_dropTrailWs (l : List Char) (h : headNotWs l = true) :
    headNotWs (dropTrailWs l) = true := by
  rcases dropTrailWs_head l with h1 | h1
  · rw [h1]
    rfl
  · cases hd : dropTrailWs l with
    | nil => rfl
    | cons x xs =>
      rw [hd] at h1
      cases l with
      | nil => simp at h1
      | cons c rest =>
        simp only [List.head?_cons, Option.some.injEq] at h1
        subst h1
        simpa [headNotWs] using h

theorem dropWhile_of_headNotWs (l : List Char) (h : headNotWs l = true) :
    l.dropWhile isPySpace = l := by
  cases l with
  | nil => rfl
  | cons c rest =>
    have hc : isPySpace c = false := by simpa [headNotWs] using h
    rw [List.dropWhile_cons, if_neg (by simp [hc])]

theorem headNotWs_pyStrip (l : List Char) : headNotWs (pyStrip l) = true :=
  headNotWs_dropTrailWs _ (headNotWs_dropWhile l)

theorem normalWs_pyStrip (l : List Char) (hn : normalWs l = true) :
    normalWs (pyStrip l) = true :=
  normalWs_dropTrailWs _ (normalWs_dropWhile l hn)

theorem pyStrip_idem (l : List Char) : pyStrip (pyStrip l) = pyStrip l := by
  show dropTrailWs ((pyStrip l).dropWhile isPySpace) = pyStrip l
  rw [dropWhile_of_headNotWs _ (headNotWs_pyStrip l)]
  exact dropTrailWs_idem _

theorem collapse_then_strip_idem (l : List Char) :
    collapse_then_strip (collapse_then_strip l) = collapse_then_strip l := by
  have hN : normalWs (collapse_then_strip l) = true :=
    normalWs_pyStrip _ (normalWs_collapseWsAux l false)
  show pyStrip (collapseWs (collapse_then_strip l)) = collapse_then_strip l
  rw [show collapseWs (collapse_then_strip l) = collapse_then_strip l from
        (collapseWsAux_of_normal _ hN).1]
  exact pyStrip_idem _

/-- C7: for every budget of at least 3, a string strictly longer than the
budget truncates to exactly the budget's length, ending in the `"..."` marker
and starting with the first budget−3 input characters; a string that fits is
returned unchanged; and the default budget is 10000. -/
theorem truncate_text_spec (l : List Char) (budget : Nat) (hb : 3 ≤ budget) :
    (budget < l.length →
      (truncate_text l budget).length = budget ∧
      (truncate_text l budget).drop (budget - 3) = ['.', '.', '.'] ∧
      (truncate_text l budget).take (budget - 3) = l.take (budget - 3)) ∧
    (l.length ≤ budget → truncate_text l budget = l) ∧
    (∀ t : List Char, truncate_text_default t = truncate_text t 10000) := by
  refine ⟨?_, ?_, fun t => rfl⟩
  · intro hlong
    unfold truncate_text pySliceTo
    rw [if_neg (by omega), if_pos (by omega : (0 : Int) ≤ (budget : Int) - 3),
      (by omega : ((budget : Int) - 3).toNat = budget - 3)]
    have hlen : (l.take (budget - 3)).length = budget - 3 := by
      rw [List.length_take]
      omega
    refine ⟨?_, List.drop_left' hlen, List.take_left' hlen⟩
    rw [List.length_append, hlen]
    simp
    omega
  · intro hshort
    unfold truncate_text
    rw [if_pos hshort]

/-- C7 witness: a 100-character string truncated to a 50-character budget
yields a 50-character result ending in the marker and starting with the first
47 input characters; the same string fits a 100-character budget. -/
theorem truncate_text_spec_witness :
    (truncate_text (List.replicate 100 'A') 50).length = 50 ∧
    (truncate_text (List.replicate 100 'A') 50).drop 47 = ['.', '.', '.'] ∧
    (truncate_text (List.replicate 100 'A') 50).take 47 =
      (List.replicate 100 'A').take 47 ∧
    truncate_text (List.replicate 100 'A') 100 = List.replicate 100 'A' ∧
    truncate_text_default (List.replicate 100 'A') =
      truncate_text (List.replicate 100 'A') 10000 := by
  have h50 := truncate_text_spec (List.replicate 100 'A') 50 (by decide)
  have h100 := truncate_text_spec (List.replicate 100 'A') 100 (by decide)
  refine ⟨?_, ?_, ?_, h100.2.1 (by decide), h50.2.2 _⟩
  · simpa using (h50.1 (by decide)).1
  · simpa using (h50.1 (by decide)).2.1
  · simpa using (h50.1 (by decide)).2.2

/-- C5 counterexample: on the input `"  a   b\n\n\n\nc  "` the code does not
return `"a b\n\nc"` — the first substitution already replaced the newline run
by a single space. -/
theorem clean_pdf_text_example_counterexample :
    clean_pdf_text ("  a   b\n\n\n\nc  ".toList) ≠ "a b\n\nc".toList := by
  rw [clean_pdf_text_eq_collapse]
  decide

/-- C5 amended: `clean_pdf_text "  a   b\n\n\n\nc  "` returns `"a b c"` (all
whitespace runs, newlines included, collapse to single spaces and the ends are
trimmed). -/
theorem clean_pdf_text_example :
    clean_pdf_text ("  a   b\n\n\n\nc  ".toList) = "a b c".toList := by
  rw [clean_pdf_text_eq_collapse]
  decide

/-- C8: `clean_pdf_text` coincides with the simpler collapse-then-trim
transform on every input, because the line-break squeeze pass never changes
the output of the whitespace collapse (which contains no newline). -/
theorem clean_pdf_text_refines_collapse (l : List Char) :
    clean_pdf_text l = collapse_then_strip l ∧
    squeezeBreaks (collapseWs l) = collapseWs l :=
  ⟨clean_pdf_text_eq_collapse l,
   squeezeBreaks_of_no_newline _ (fun c hc => no_newline_collapseWs l c hc)⟩

/-- C10: `clean_pdf_text` is idempotent. -/
theorem clean_pdf_text_idempotent (l : List Char) :
    clean_pdf_text (clean_pdf_text l) = clean_pdf_text l := by
  rw [clean_pdf_text_eq_collapse, clean_pdf_text_eq_collapse,
    collapse_then_strip_idem]

/-- Deduplicating a nonempty constant list leaves a single element. -/
theorem dedup_replicate_one (n : Nat) :
    (List.replicate (n + 1) (1 : Int)).dedup = [1] := by
  induction n with
  | zero => rfl
  | succ k ih =>
    rw [List.replicate_succ, List.dedup_cons_of_mem (by simp [List.mem_replicate])]
    exact ih

/-- C4 counterexample: a list of 101 copies of page 1 has one entry after
deduplication, no non-positive entry and is nonempty, yet `validate_pages`
rejects it — the 100-entry cap is checked on the raw list, before
deduplication. -/
theorem validate_pages_counterexample :
    (List.replicate 101 (1 : Int)).dedup.length = 1 ∧
    List.replicate 101 (1 : Int) ≠ [] ∧
    (∀ p ∈ List.replicate 101 (1 : Int), 0 < p) ∧
    validate_pages (some (List.replicate 101 (1 : Int))) =
      Except.error "Too many pages requested (limit: 100)" := by
  refine ⟨?_, by decide, by decide, ?_⟩
  · have h := dedup_replicate_one 100
    norm_num at h
    rw [h]
    rfl
  · simp only [validate_pages]
    rw [if_neg (by decide), if_neg (by decide), if_pos (by decide)]

/-- C4 amended: a pages list is rejected at construction iff it is empty,
contains a non-positive entry, or has more than 100 entries before
deduplication; an accepted list is stored deduplicated and sorted ascending,
preserving the set of requested pages. -/
theorem validate_pages_spec (v : List Int) :
    ((∃ e, validate_pages (some v) = Except.error e) ↔
      (v = [] ∨ (∃ p ∈ v, p ≤ 0) ∨ 100 < v.length)) ∧
    (∀ w, validate_pages (some v) = Except.ok (some w) →
      w.Sorted (· ≤ ·) ∧ w.Nodup ∧ ∀ p, p ∈ w ↔ p ∈ v) := by
  constructor
  · simp only [validate_pages]
    split_ifs with h1 h2 h3
    · simp [h1]
    · constructor
      · intro _
        exact Or.inr (Or.inl (by simpa using h2))
      · intro _
        exact ⟨_, rfl⟩
    · constructor
      · intro _
        exact Or.inr (Or.inr h3)
      · intro _
        exact ⟨_, rfl⟩
    · constructor
      · rintro ⟨e, he⟩
        exact absurd he (by simp)
      · rintro (hx | hx | hx)
        · exact absurd hx h1
        · exact absurd (show (v.any fun p => decide (p ≤ 0)) = true by
            simpa using hx) h2
        · exact absurd hx h3
  · intro w hw
    simp only [validate_pages] at hw
    split_ifs at hw
    simp only [Except.ok.injEq, Option.some.injEq] at hw
    subst hw
    refine ⟨List.sorted_insertionSort _ _, ?_, ?_⟩
    · exact ((List.perm_insertionSort _ _).nodup_iff).mpr (List.nodup_dedup v)
    · intro p
      rw [(List.perm_insertionSort _ _).mem_iff, List.mem_dedup]

/-- C4 witness: `[3, 1, 3]` is accepted and stored as `[1, 3]`, which is
sorted, duplicate-free and has the same members as the request. -/
theorem validate_pages_spec_witness :
    ([1, 3] : List Int).Sorted (· ≤ ·) ∧ ([1, 3] : List Int).Nodup ∧
      (∀ p : Int, p ∈ ([1, 3] : List Int) ↔ p ∈ ([3, 1, 3] : List Int)) :=
  (validate_pages_spec [3, 1, 3]).2 [1, 3] rfl

/-- C9: the exactly-one-of check of `PdfSource.__init__` uses Python
truthiness, so an empty-string path together with a valid URL is accepted and
`_load_pdf` routes it to the URL branch, while an empty-string path with no
URL is rejected even though the path field is present. -/
theorem pdfsource_empty_path_spec (u : String)
    (hu : ("http://".toList.isPrefixOf u.toList ||
           "https://".toList.isPrefixOf u.toList) = true) :
    mkPdfSource (some "") (some u) none = Except.ok ⟨some "", some u, none⟩ ∧
    loadRoute ⟨some "", some u, none⟩ = LoadRoute.remoteUrl u ∧
    mkPdfSource (some "") none none =
      Except.error "Each source must have either 'path' or 'url', but not both" := by
  have hne : u.toList.isEmpty = false := by
    cases hl : u.toList with
    | nil =>
      rw [hl] at hu
      exact absurd hu (by decide)
    | cons c cs => rfl
  have hfalse : pyTruthyStr (some "") = false := rfl
  have htrue : pyTruthyStr (some u) = true := by
    show (!u.toList.isEmpty) = true
    rw [hne]
    rfl
  have hurl : validate_url (some u) = Except.ok (some u) := by
    simp only [validate_url]
    rw [if_pos hu]
  refine ⟨?_, ?_, rfl⟩
  · unfold mkPdfSource
    rw [hurl]
    dsimp only [validate_pages]
    rw [hfalse, htrue]
    simp
  · unfold loadRoute
    dsimp only
    rw [hfalse, htrue]
    simp

/-- C9 witness: concrete instance with the URL `http://example.com/a.pdf`. -/
theorem pdfsource_empty_path_spec_witness :
    mkPdfSource (some "") (some "http://example.com/a.pdf") none =
      Except.ok ⟨some "", some "http://example.com/a.pdf", none⟩ ∧
    loadRoute ⟨some "", some "http://example.com/a.pdf", none⟩ =
      LoadRoute.remoteUrl "http://example.com/a.pdf" ∧
    mkPdfSource (some "") none none =
      Except.error "Each source must have either 'path' or 'url', but not both" :=
  pdfsource_empty_path_spec "http://example.com/a.pdf" (by decide)

/-- C3: `resolve_path` fails with `ValueError` on input that strips to
nothing (in particular the empty string); fails with `SecurityError` when the
normalized form is absolute; fails with `SecurityError` when the full
resolution against the root is not a descendant of the root; and every
accepted input yields the resolution of the normalized path against the root,
which lies within the root. -/
theorem resolve_path_spec (root : List (List Char)) (p : List Char) :
    (pyStrip p = [] →
      resolve_path root p =
        Except.error (PyError.valueError "Path cannot be empty")) ∧
    (pyStrip p ≠ [] → (normpathList p).head? = some '/' →
      resolve_path root p =
        Except.error (PyError.securityError "Absolute paths are not allowed")) ∧
    (pyStrip p ≠ [] → (normpathList p).head? ≠ some '/' →
      root.isPrefixOf (resolveSegs (root ++ splitOnChar '/' (normpathList p))) = false →
      resolve_path root p =
        Except.error (PyError.securityError "Path traversal detected. Access denied")) ∧
    (∀ res, resolve_path root p = Except.ok res →
      root.isPrefixOf res = true ∧
      res = resolveSegs (root ++ splitOnChar '/' (normpathList p))) := by
  refine ⟨?_, ?_, ?_, ?_⟩
  · intro h
    unfold resolve_path
    rw [if_pos h]
  · intro h1 h2
    unfold resolve_path
    rw [if_neg h1]
    dsimp only
    rw [if_pos h2]
  · intro h1 h2 h3
    unfold resolve_path
    rw [if_neg h1]
    dsimp only
    rw [if_neg h2, if_neg (by simp [h3])]
  · intro res hres
    unfold resolve_path at hres
    dsimp only at hres
    split_ifs at hres with h1 h2 h3
    simp only [Except.ok.injEq] at hres
    exact ⟨hres ▸ h3, hres.symm⟩

/-- C3 witness: under the root `/home/user`, the empty input fails with
`ValueError`, `/etc/passwd` and `../../etc/passwd` fail with `SecurityError`,
and `a/b.pdf` resolves to `/home/user/a/b.pdf`, inside the root. -/
theorem resolve_path_spec_witness :
    resolve_path ["home".toList, "user".toList] "".toList =
      Except.error (PyError.valueError "Path cannot be empty") ∧
    resolve_path ["home".toList, "user".toList] "/etc/passwd".toList =
      Except.error (PyError.securityError "Absolute paths are not allowed") ∧
    resolve_path ["home".toList, "user".toList] "../../etc/passwd".toList =
      Except.error (PyError.securityError "Path traversal detected. Access denied") ∧
    List.isPrefixOf ["home".toList, "user".toList]
      ["home".toList, "user".toList, "a".toList, "b.pdf".toList] = true ∧
    resolve_path ["home".toList, "user".toList] "a/b.pdf".toList =
      Except.ok ["home".toList, "user".toList, "a".toList, "b.pdf".toList] := by
  refine ⟨(resolve_path_spec ["home".toList, "user".toList] "".toList).1 rfl,
    (resolve_path_spec ["home".toList, "user".toList] "/etc/passwd".toList).2.1
      (by decide) (by decide),
    (resolve_path_spec ["home".toList, "user".toList]
        "../../etc/passwd".toList).2.2.1 (by decide) (by decide) (by decide),
    ?_, ?_⟩
  · exact ((resolve_path_spec ["home".toList, "user".toList]
        "a/b.pdf".toList).2.2.2
      ["home".toList, "user".toList, "a".toList, "b.pdf".toList] rfl).1
  · rfl

/-- Each requested page yields exactly one entry, carrying that page number,
in the order requested. -/
theorem extract_page_texts_map_page (doc : PdfDoc) (pns : List Int) :
    (extract_page_texts doc pns).map (fun t => t.page) = pns := by
  unfold extract_page_texts
  rw [List.map_map]
  induction pns with
  | nil => rfl
  | cons p rest ih =>
    rw [List.map_cons, ih]
    congr 1
    dsimp only [Function.comp_apply]
    cases hx : doc.extractText (p - 1) <;> simp [hx]

/-- C1: when loading a source fails, the batch keeps one result per source
and the failed source's slot holds a failed record with the best available
identifier (`path or url or "unknown"`) and the formatted message; the other
sources are unaffected, so no per-source failure aborts the batch. -/
theorem process_request_isolates_failures
    (load : PdfSource → Except PyError PdfDoc) (request : ReadPdfRequest)
    (i : Nat) (hi : i < request.sources.length) (e : PyError)
    (hfail : load (request.sources.get ⟨i, hi⟩) = Except.error e) :
    (process_request load request).results.length = request.sources.length ∧
    (process_request load request).results[i]? =
      some ⟨sourceDesc (request.sources.get ⟨i, hi⟩), false, none,
        some (format_error_for_amazon_q e
          ("Processing " ++ sourceDesc (request.sources.get ⟨i, hi⟩)))⟩ := by
  constructor
  · simp [process_request]
  · rw [show (process_request load request).results = request.sources.map
        (fun source => process_single_source load source
          request.include_full_text request.include_metadata
          request.include_page_count) from rfl,
      List.getElem?_map,
      show request.sources[i]? = some (request.sources.get ⟨i, hi⟩) from by
        rw [List.getElem?_eq_getElem hi]
        exact rfl]
    simp only [Option.map_some']
    congr 1
    unfold process_single_source
    dsimp only
    rw [hfail]

/-- C1 witness: a single-source batch whose loader raises `FileNotFoundError`
still returns one result, a failed record for `a.pdf`. -/
theorem process_request_isolates_failures_witness :
    (process_request
        (fun _ => Except.error (PyError.fileNotFoundError "File not found: a.pdf"))
        ⟨[⟨some "a.pdf", none, none⟩], false, true, true⟩).results.length = 1 ∧
    (process_request
        (fun _ => Except.error (PyError.fileNotFoundError "File not found: a.pdf"))
        ⟨[⟨some "a.pdf", none, none⟩], false, true, true⟩).results[0]? =
      some ⟨"a.pdf", false, none,
        some "📁 File Not Found: File not found: a.pdf"⟩ := by
  have h := process_request_isolates_failures
    (fun _ => Except.error (PyError.fileNotFoundError "File not found: a.pdf"))
    ⟨[⟨some "a.pdf", none, none⟩], false, true, true⟩ 0 (by decide)
    (PyError.fileNotFoundError "File not found: a.pdf") rfl
  refine ⟨h.1, ?_⟩
  rw [h.2]
  rfl

/-- C2: the batch response has exactly one result per input source, in input
order: slot `i` of the results is the per-source outcome of source `i`. -/
theorem process_request_one_result_per_source
    (load : PdfSource → Except PyError PdfDoc) (request : ReadPdfRequest)
    (hvalid : validRequest request) :
    (process_request load request).results.length = request.sources.length ∧
    ∀ i : Nat, (process_request load request).results[i]? =
      (request.sources[i]?).map (fun s =>
        process_single_source load s request.include_full_text
          request.include_metadata request.include_page_count) := by
  refine ⟨by simp [process_request], fun i => ?_⟩
  rw [show (process_request load request).results = request.sources.map
      (fun source => process_single_source load source
        request.include_full_text request.include_metadata
        request.include_page_count) from rfl,
    List.getElem?_map]

/-- C2 witness: a valid two-source request yields exactly two results, and
each slot is the corresponding source's outcome. -/
theorem process_request_one_result_per_source_witness :
    validRequest ⟨[⟨some "a.pdf", none, none⟩,
      ⟨none, some "http://e.com/b.pdf", none⟩], false, true, true⟩ ∧
    (process_request (fun _ => Except.error (PyError.valueError "boom"))
        ⟨[⟨some "a.pdf", none, none⟩,
          ⟨none, some "http://e.com/b.pdf", none⟩], false, true, true⟩).results.length = 2 ∧
    (process_request (fun _ => Except.error (PyError.valueError "boom"))
        ⟨[⟨some "a.pdf", none, none⟩,
          ⟨none, some "http://e.com/b.pdf", none⟩], false, true, true⟩).results[1]? =
      some (process_single_source (fun _ => Except.error (PyError.valueError "boom"))
        ⟨none, some "http://e.com/b.pdf", none⟩ false true true) := by
  have hv : validRequest ⟨[⟨some "a.pdf", none, none⟩,
      ⟨none, some "http://e.com/b.pdf", none⟩], false, true, true⟩ :=
    ⟨by decide, by decide⟩
  have h := process_request_one_result_per_source
    (fun _ => Except.error (PyError.valueError "boom"))
    ⟨[⟨some "a.pdf", none, none⟩,
      ⟨none, some "http://e.com/b.pdf", none⟩], false, true, true⟩ hv
  refine ⟨hv, by rw [h.1]; rfl, ?_⟩
  rw [h.2 1]
  rfl

/-- C6: with explicit pages requested against a loaded document, the request
is partitioned by the in-range test into extracted pages and invalid pages:
the result is a success record whose `page_texts` holds one entry per in-range
page (in order, each carrying its page number) and whose `warnings` is the
single aggregated message naming all invalid pages and the total, while
`full_text` stays empty. -/
theorem explicit_pages_partition
    (load : PdfSource → Except PyError PdfDoc) (source : PdfSource)
    (ift im ic : Bool) (doc : PdfDoc) (ps : List Int)
    (hload : load source = Except.ok doc) (hps : source.pages = some ps)
    (hne : ps ≠ []) :
    process_single_source load source ift im ic =
      ⟨sourceDesc source, true,
        some ⟨(if im then some (extract_metadata doc) else none),
          (if ic then some doc.numPages else none),
          none,
          (if ps.filter (pageInRange doc.numPages) = [] then none
           else some (extract_page_texts doc (ps.filter (pageInRange doc.numPages)))),
          (if ps.filter (fun p => !pageInRange doc.numPages p) = [] then none
           else some [outOfRangeWarning
             (ps.filter (fun p => !pageInRange doc.numPages p)) doc.numPages])⟩,
        none⟩ ∧
    (extract_page_texts doc (ps.filter (pageInRange doc.numPages))).map
        (fun t => t.page) = ps.filter (pageInRange doc.numPages) := by
  have hpt : pagesTruthy (some ps) = true := by
    simp [pagesTruthy, hne]
  refine ⟨?_, extract_page_texts_map_page doc _⟩
  unfold process_single_source
  rw [hload]
  dsimp only
  rw [hps]
  simp only [hpt, Option.getD_some]
  by_cases h1 : ps.filter (pageInRange doc.numPages) = [] <;>
    by_cases h2 : ps.filter (fun p => !pageInRange doc.numPages p) = [] <;>
      simp [h1, h2]

/-- C6 witness: requesting pages `[1, 9999]` against a 3-page document whose
pages read `"hello"` yields one warning naming `9999` and the total `3`, and a
`page_texts` list containing only page 1's entry. -/
theorem explicit_pages_partition_witness :
    process_single_source
        (fun _ => Except.ok ⟨3, none, fun _ => Except.ok "hello"⟩)
        ⟨some "doc.pdf", none, some [1, 9999]⟩ false true true =
      ⟨"doc.pdf", true,
        some ⟨some [], some 3, none,
          some [⟨1, "hello"⟩],
          some ["Requested page numbers [9999] exceed total pages (3)"]⟩,
        none⟩ := by
  have h := explicit_pages_partition
    (fun _ => Except.ok ⟨3, none, fun _ => Except.ok "hello"⟩)
    ⟨some "doc.pdf", none, some [1, 9999]⟩ false true true
    ⟨3, none, fun _ => Except.ok "hello"⟩ [1, 9999] rfl rfl (by decide)
  rw [h.1]
  simp only [extract_page_texts, clean_pdf_text_str, truncate_text_str,
    truncate_text_default, clean_pdf_text_eq_collapse]
  decide
